import Mathlib

set_option linter.unusedVariables false

/-! Shallow embedding of the Blood on the Clocktower session server.
    The in-memory JS Maps (rooms, players, playerRoles, deadPlayers,
    drunkPlayers, playerOrder, chatMessages) become functions from string
    keys to optional values; Map.set, Map.delete and Map.get become
    mapSet, mapDel and plain application.  Each HTTP handler becomes a
    function from its inputs and the current state to a pair of an
    Except result (status code plus error string, mirroring
    res.status(n).json) and the successor state.  Wall-clock reads
    (Date.now) are threaded as an explicit argument, and the randomized
    shuffles of the assign handler are threaded as oracle lists. -/

namespace Clocktower

/-- Functional update of a string-keyed map, mirroring JS Map.set. -/
def mapSet {α : Type} (m : String → Option α) (k : String) (v : α) : String → Option α :=
  fun x => if x = k then some v else m x

/-- Functional removal from a string-keyed map, mirroring JS Map.delete. -/
def mapDel {α : Type} (m : String → Option α) (k : String) : String → Option α :=
  fun x => if x = k then none else m x

/-- Truthiness of an optional string as JavaScript evaluates it: an absent
    value and the empty string are falsy. -/
def truthy : Option String → Bool
  | none => false
  | some s => s ≠ ""

/-- The toUpperCase normalization applied to room codes, modelled over the
    character list of the string. -/
def jsToUpper (s : String) : String := ⟨s.data.map Char.toUpper⟩

/-- The toLowerCase normalization applied to usernames, modelled over the
    character list of the string. -/
def jsToLower (s : String) : String := ⟨s.data.map Char.toLower⟩

/-- The trim applied to chat content: whitespace stripped from both ends,
    modelled over the character list of the string. -/
def jsTrim (s : String) : String :=
  ⟨((s.data.dropWhile Char.isWhitespace).reverse.dropWhile Char.isWhitespace).reverse⟩

/-- A selected role entry as stored on a room: name, description, category. -/
structure Role where
  name : String
  description : String
  category : String
deriving DecidableEq

/-- A role entry of the reference catalog, before a category is attached. -/
structure RoleInfo where
  name : String
  description : String
deriving DecidableEq

/-- One named role set of the reference catalog: display name plus the role
    entries listed under each category key. -/
structure RoleSetData where
  name : String
  rolesFor : String → List RoleInfo

/-- A player session record, as stored in the players map. -/
structure Player where
  id : String
  username : Option String
  emoji : String
  roomCode : Option String
  isHost : Bool
deriving DecidableEq

/-- A room record, as stored in the rooms map. -/
structure Room where
  code : String
  hostId : String
  players : List String
  createdAt : Nat
  selectedRoles : List Role
  rolesAssigned : Bool
  roleSet : String
deriving DecidableEq

/-- A chat message record, as appended to the per-room chat log. -/
structure ChatMessage where
  id : String
  senderId : String
  senderEmoji : String
  senderUsername : Option String
  isFromHost : Bool
  recipientId : Option String
  content : String
  timestamp : Nat
deriving DecidableEq

/-- An HTTP-level failure: status code plus the error string of the JSON body. -/
structure ApiError where
  status : Nat
  error : String
deriving DecidableEq

/-- The whole in-memory server state: the seven process-wide maps. -/
structure ServerState where
  rooms : String → Option Room
  players : String → Option Player
  playerRoles : String → Option Role
  deadPlayers : String → Option (List String)
  drunkPlayers : String → Option (List String)
  playerOrder : String → Option (List String)
  chatMessages : String → Option (List ChatMessage)

/-- The empty state at process start. -/
def initState : ServerState :=
  { rooms := fun _ => none
    players := fun _ => none
    playerRoles := fun _ => none
    deadPlayers := fun _ => none
    drunkPlayers := fun _ => none
    playerOrder := fun _ => none
    chatMessages := fun _ => none }

/-- The id of the default role set. -/
def defaultRoleSet : String := "trouble_brewing"

/-- The avatar override applied on room create and join: a username whose
    lowercase form is the literal luc or lucas gets the fixed poop emoji. -/
def lucEmoji (p : Player) : Player :=
  let lowerUsername := jsToLower (p.username.getD "")
  if lowerUsername = "luc" ∨ lowerUsername = "lucas" then { p with emoji := "💩" } else p

/-- The leaveRoom helper: removes the player from the member list, clears
    the player record room fields and the role assignment, deletes the room
    and all per-room side tables when the member list becomes empty, and
    otherwise transfers the host to the first remaining member when the
    leaving player was host. -/
def leaveRoom (playerId roomCode : String) (st : ServerState) : ServerState :=
  match st.rooms roomCode with
  | none => st
  | some room0 =>
    let newPlayers := room0.players.filter (fun id => id ≠ playerId)
    let st1 : ServerState := { st with
      players := fun t =>
        if t = playerId then
          (st.players t).map (fun p => { p with roomCode := none, isHost := false })
        else st.players t
      playerRoles := mapDel st.playerRoles playerId }
    if newPlayers.isEmpty then
      { st1 with
        rooms := mapDel st1.rooms roomCode
        deadPlayers := mapDel st1.deadPlayers roomCode
        drunkPlayers := mapDel st1.drunkPlayers roomCode
        playerOrder := mapDel st1.playerOrder roomCode
        chatMessages := mapDel st1.chatMessages roomCode }
    else
      let newHostId := if room0.hostId = playerId then newPlayers.headI else room0.hostId
      let room1 : Room := { room0 with players := newPlayers, hostId := newHostId }
      let playersAfter :=
        if room0.hostId = playerId then
          fun t =>
            if t = newHostId then (st1.players t).map (fun p => { p with isHost := true })
            else st1.players t
        else st1.players
      { st1 with rooms := mapSet st1.rooms roomCode room1, players := playersAfter }

/-- Leaves the current room of the player when the player record names one
    that still exists, exactly as the create and join handlers do before
    entering the new room. -/
def leaveCurrentRoom (playerId : String) (p : Player) (st : ServerState) : ServerState :=
  match p.roomCode with
  | some rc => if (st.rooms rc).isSome then leaveRoom playerId rc st else st
  | none => st

/-- The create-room handler.  The fresh room code produced by
    generateRoomCode is threaded as the newCode argument and Date.now as
    the now argument. -/
def createRoom (playerId newCode : String) (now : Nat) (st : ServerState) :
    Except ApiError (Room × Player) × ServerState :=
  match st.players playerId with
  | none => (.error ⟨401, "Invalid session"⟩, st)
  | some player0 =>
    let st1 := leaveCurrentRoom playerId player0 st
    let player1 := (st1.players playerId).getD player0
    let player2 := lucEmoji player1
    let room : Room :=
      { code := newCode, hostId := playerId, players := [playerId], createdAt := now
        selectedRoles := [], rolesAssigned := false, roleSet := defaultRoleSet }
    let player3 := { player2 with roomCode := some newCode, isHost := true }
    (.ok (room, player3),
      { st1 with
        rooms := mapSet st1.rooms newCode room
        players := mapSet st1.players playerId player3 })

/-- The join-room handler.  The room existence check runs before the leave
    of the current room, so a sole member rejoining their own room deletes
    it mid-handler and the subsequent map read comes back empty: the JS
    code then throws a TypeError, surfaced as a 500. -/
def joinRoom (playerId rawCode : String) (st : ServerState) :
    Except ApiError (Room × Player) × ServerState :=
  match st.players playerId with
  | none => (.error ⟨401, "Invalid session"⟩, st)
  | some player0 =>
    let code := (jsToUpper rawCode)
    if (st.rooms code).isNone then (.error ⟨404, "Room not found"⟩, st)
    else
      let st1 := leaveCurrentRoom playerId player0 st
      let player1 := (st1.players playerId).getD player0
      let player2 := lucEmoji player1
      match st1.rooms code with
      | none =>
        (.error ⟨500, "TypeError"⟩,
          { st1 with players := mapSet st1.players playerId player2 })
      | some room =>
        let room2 :=
          if playerId ∈ room.players then room
          else { room with players := room.players ++ [playerId] }
        let player3 := { player2 with roomCode := some code, isHost := room2.hostId = playerId }
        (.ok (room2, player3),
          { st1 with
            rooms := mapSet st1.rooms code room2
            players := mapSet st1.players playerId player3 })

/-- The leave-room handler. -/
def leaveRoomApi (playerId : String) (st : ServerState) :
    Except ApiError Unit × ServerState :=
  match st.players playerId with
  | none => (.error ⟨401, "Invalid session"⟩, st)
  | some player =>
    match player.roomCode with
    | some rc => if (st.rooms rc).isSome then (.ok (), leaveRoom playerId rc st) else (.ok (), st)
    | none => (.ok (), st)

/-- The four fixed category keys, in the order the selected-roles handler
    scans them. -/
def validCategories : List String := ["Townsfolk", "Outsiders", "Minions", "Demons"]

/-- The role lookup table of the default role set, used as the fallback
    when the active role set of a room is unknown to the catalog. -/
def defaultRolesFor (catalog : String → Option RoleSetData) : String → List RoleInfo :=
  match catalog defaultRoleSet with
  | some d => d.rolesFor
  | none => fun _ => []

/-- Scans the four categories of a role table for the first role whose name
    matches, returning it with the category attached. -/
def findRoleInSet (rolesFor : String → List RoleInfo) (rname : String) : Option Role :=
  validCategories.findSome? fun cat =>
    ((rolesFor cat).find? (fun r => r.name = rname)).map fun r =>
      { name := r.name, description := r.description, category := cat }

/-- The role-set handler: host only, unknown ids rejected, and on success
    the selected-roles list of the room is cleared. -/
def setRoleSet (catalog : String → Option RoleSetData) (playerId rawCode setId : String)
    (st : ServerState) : Except ApiError String × ServerState :=
  match st.players playerId with
  | none => (.error ⟨401, "Invalid session"⟩, st)
  | some _ =>
    let code := (jsToUpper rawCode)
    match st.rooms code with
    | none => (.error ⟨404, "Room not found"⟩, st)
    | some room =>
      if room.hostId ≠ playerId then (.error ⟨403, "Only the host can change settings"⟩, st)
      else
        match catalog setId with
        | none => (.error ⟨400, "Invalid role set"⟩, st)
        | some d =>
          let room1 := { room with roleSet := setId, selectedRoles := ([] : List Role) }
          (.ok d.name, { st with rooms := mapSet st.rooms code room1 })

/-- The selected-roles handler: host only; every submitted entry whose name
    is not found in the active role set of the room is silently dropped. -/
def setSelectedRoles (catalog : String → Option RoleSetData) (playerId rawCode : String)
    (submitted : List Role) (st : ServerState) : Except ApiError (List Role) × ServerState :=
  match st.players playerId with
  | none => (.error ⟨401, "Invalid session"⟩, st)
  | some _ =>
    let code := (jsToUpper rawCode)
    match st.rooms code with
    | none => (.error ⟨404, "Room not found"⟩, st)
    | some room =>
      if room.hostId ≠ playerId then (.error ⟨403, "Only the host can change settings"⟩, st)
      else
        let roomRoles :=
          match catalog room.roleSet with
          | some d => d.rolesFor
          | none => defaultRolesFor catalog
        let validRoles := submitted.filterMap fun role => findRoleInSet roomRoles role.name
        (.ok validRoles,
          { st with rooms := mapSet st.rooms code { room with selectedRoles := validRoles } })

/-- The player-order handler: host only; submitted ids not in the member
    list are dropped, the rest stored verbatim (duplicates included). -/
def setPlayerOrder (playerId rawCode : String) (order : List String) (st : ServerState) :
    Except ApiError (List String) × ServerState :=
  match st.players playerId with
  | none => (.error ⟨401, "Invalid session"⟩, st)
  | some _ =>
    let code := (jsToUpper rawCode)
    match st.rooms code with
    | none => (.error ⟨404, "Room not found"⟩, st)
    | some room =>
      if room.hostId ≠ playerId then
        (.error ⟨403, "Only the host can change player order"⟩, st)
      else
        let validOrder := order.filter (fun id => id ∈ room.players)
        (.ok validOrder, { st with playerOrder := mapSet st.playerOrder code validOrder })

/-- The effective seating order computed on every read: stored entries that
    are still members first, in stored order, then members missing from the
    stored order, in membership order.  An absent stored order defaults to
    the membership order. -/
def effectiveOrder (stored : Option (List String)) (members : List String) : List String :=
  let orderedPlayerIds := stored.getD members
  let validOrderedIds := orderedPlayerIds.filter (fun id => id ∈ members)
  let newPlayers := members.filter (fun id => id ∉ validOrderedIds)
  validOrderedIds ++ newPlayers

/-- The seating order returned by the room read handler for a room code. -/
def getRoomOrder (rawCode : String) (st : ServerState) : Option (List String) :=
  (st.rooms (jsToUpper rawCode)).map fun room =>
    effectiveOrder (st.playerOrder (jsToUpper rawCode)) room.players

/-- The error string of the count-mismatch rejection, stating both counts. -/
def countMismatchMsg (numPlayers numRoles : Nat) : String :=
  "Role count must match player count. You have " ++ toString numPlayers ++
    " players but " ++ toString numRoles ++ " roles selected."

/-- One step of the positional assignment loop. -/
def assignInsert (m : String → Option Role) (pr : String × Role) : String → Option Role :=
  mapSet m pr.1 pr.2

/-- The assign-roles handler.  The two randomized shuffles are threaded as
    the shuffledPlayers and shuffledRoles arguments; the JS sort with a
    random comparator always yields some permutation of its input. -/
def assignRoles (playerId rawCode : String) (shuffledPlayers : List String)
    (shuffledRoles : List Role) (st : ServerState) : Except ApiError Nat × ServerState :=
  match st.players playerId with
  | none => (.error ⟨401, "Invalid session"⟩, st)
  | some _ =>
    let code := (jsToUpper rawCode)
    match st.rooms code with
    | none => (.error ⟨404, "Room not found"⟩, st)
    | some room =>
      if room.hostId ≠ playerId then (.error ⟨403, "Only the host can assign roles"⟩, st)
      else if room.selectedRoles = [] then (.error ⟨400, "No roles selected"⟩, st)
      else
        let eligiblePlayers := room.players.filter (fun pid => pid ≠ room.hostId)
        if eligiblePlayers.length ≠ room.selectedRoles.length then
          (.error ⟨400, countMismatchMsg eligiblePlayers.length room.selectedRoles.length⟩, st)
        else
          let cleared := room.players.foldl (fun m pid => mapDel m pid) st.playerRoles
          let newRoles := (shuffledPlayers.zip shuffledRoles).foldl assignInsert cleared
          (.ok shuffledRoles.length,
            { st with
              playerRoles := newRoles
              rooms := mapSet st.rooms code { room with rolesAssigned := true } })

/-- The reset-roles handler: clears the role of every member, deletes the
    dead, drunk and chat tables of the room, and lowers the assigned flag. -/
def resetRoles (playerId rawCode : String) (st : ServerState) :
    Except ApiError Unit × ServerState :=
  match st.players playerId with
  | none => (.error ⟨401, "Invalid session"⟩, st)
  | some _ =>
    let code := (jsToUpper rawCode)
    match st.rooms code with
    | none => (.error ⟨404, "Room not found"⟩, st)
    | some room =>
      if room.hostId ≠ playerId then (.error ⟨403, "Only the host can reset roles"⟩, st)
      else
        let cleared := room.players.foldl (fun m pid => mapDel m pid) st.playerRoles
        (.ok (),
          { st with
            playerRoles := cleared
            deadPlayers := mapDel st.deadPlayers code
            drunkPlayers := mapDel st.drunkPlayers code
            chatMessages := mapDel st.chatMessages code
            rooms := mapSet st.rooms code { room with rolesAssigned := false } })

/-- The kill-player handler: host only, target must be a member, then the
    target id is added to the dead set of the room. -/
def killPlayer (playerId rawCode targetPlayerId : String) (st : ServerState) :
    Except ApiError Unit × ServerState :=
  match st.players playerId with
  | none => (.error ⟨401, "Invalid session"⟩, st)
  | some _ =>
    let code := (jsToUpper rawCode)
    match st.rooms code with
    | none => (.error ⟨404, "Room not found"⟩, st)
    | some room =>
      if room.hostId ≠ playerId then
        (.error ⟨403, "Only the host can mark players as dead"⟩, st)
      else if targetPlayerId ∉ room.players then
        (.error ⟨400, "Player not in room"⟩, st)
      else
        let s := (st.deadPlayers code).getD []
        let s1 := if targetPlayerId ∈ s then s else s ++ [targetPlayerId]
        (.ok (), { st with deadPlayers := mapSet st.deadPlayers code s1 })

/-- The revive-player handler: host only; the target id is deleted from the
    dead set when that set exists.  There is no membership check on the
    target. -/
def revivePlayer (playerId rawCode targetPlayerId : String) (st : ServerState) :
    Except ApiError Unit × ServerState :=
  match st.players playerId with
  | none => (.error ⟨401, "Invalid session"⟩, st)
  | some _ =>
    let code := (jsToUpper rawCode)
    match st.rooms code with
    | none => (.error ⟨404, "Room not found"⟩, st)
    | some room =>
      if room.hostId ≠ playerId then
        (.error ⟨403, "Only the host can revive players"⟩, st)
      else
        match st.deadPlayers code with
        | some s =>
          let s1 := s.filter (fun x => x ≠ targetPlayerId)
          (.ok (), { st with deadPlayers := mapSet st.deadPlayers code s1 })
        | none => (.ok (), st)

/-- The mark-drunk handler: host only, target must be a member, then the
    target id is added to the drunk set of the room. -/
def markDrunk (playerId rawCode targetPlayerId : String) (st : ServerState) :
    Except ApiError Unit × ServerState :=
  match st.players playerId with
  | none => (.error ⟨401, "Invalid session"⟩, st)
  | some _ =>
    let code := (jsToUpper rawCode)
    match st.rooms code with
    | none => (.error ⟨404, "Room not found"⟩, st)
    | some room =>
      if room.hostId ≠ playerId then
        (.error ⟨403, "Only the host can mark players as drunk"⟩, st)
      else if targetPlayerId ∉ room.players then
        (.error ⟨400, "Player not in room"⟩, st)
      else
        let s := (st.drunkPlayers code).getD []
        let s1 := if targetPlayerId ∈ s then s else s ++ [targetPlayerId]
        (.ok (), { st with drunkPlayers := mapSet st.drunkPlayers code s1 })

/-- The unmark-drunk handler: host only; the target id is deleted from the
    drunk set when that set exists.  There is no membership check on the
    target. -/
def unmarkDrunk (playerId rawCode targetPlayerId : String) (st : ServerState) :
    Except ApiError Unit × ServerState :=
  match st.players playerId with
  | none => (.error ⟨401, "Invalid session"⟩, st)
  | some _ =>
    let code := (jsToUpper rawCode)
    match st.rooms code with
    | none => (.error ⟨404, "Room not found"⟩, st)
    | some room =>
      if room.hostId ≠ playerId then
        (.error ⟨403, "Only the host can unmark players as drunk"⟩, st)
      else
        match st.drunkPlayers code with
        | some s =>
          let s1 := s.filter (fun x => x ≠ targetPlayerId)
          (.ok (), { st with drunkPlayers := mapSet st.drunkPlayers code s1 })
        | none => (.ok (), st)

/-- The chat-send handler.  Date.now is threaded as the now argument and is
    used both for the message id (as a string) and the timestamp. -/
def sendChat (playerId rawCode content : String) (recipientId : Option String) (now : Nat)
    (st : ServerState) : Except ApiError ChatMessage × ServerState :=
  match st.players playerId with
  | none => (.error ⟨401, "Invalid session"⟩, st)
  | some sender =>
    let code := (jsToUpper rawCode)
    match st.rooms code with
    | none => (.error ⟨404, "Room not found"⟩, st)
    | some room =>
      if playerId ∉ room.players then (.error ⟨403, "You are not in this room"⟩, st)
      else if jsTrim content = "" then (.error ⟨400, "Message cannot be empty"⟩, st)
      else if content.length > 500 then
        (.error ⟨400, "Message too long (max 500 characters)"⟩, st)
      else if room.hostId ≠ playerId ∧ recipientId ≠ some room.hostId then
        (.error ⟨403, "Players can only message the host"⟩, st)
      else if room.hostId = playerId ∧ truthy recipientId ∧ recipientId.getD "" ∉ room.players then
        (.error ⟨400, "Invalid recipient"⟩, st)
      else
        let message : ChatMessage :=
          { id := toString now
            senderId := playerId
            senderEmoji := sender.emoji
            senderUsername := sender.username
            isFromHost := room.hostId = playerId
            recipientId := if truthy recipientId then recipientId else none
            content := jsTrim content
            timestamp := now }
        let log := (st.chatMessages code).getD []
        (.ok message, { st with chatMessages := mapSet st.chatMessages code (log ++ [message]) })

/-- The visibility predicate of the chat-history handler: group messages
    always pass, a DM passes for its recipient and its sender. -/
def chatVisible (playerId : String) (msg : ChatMessage) : Bool :=
  if ¬ truthy msg.recipientId then true
  else msg.recipientId = some playerId ∨ msg.senderId = playerId

/-- The chat-history read handler: the stored log filtered by visibility
    for the viewer, in stored (send) order. -/
def getChatHistory (playerId rawCode : String) (st : ServerState) :
    Except ApiError (List ChatMessage) :=
  match st.players playerId with
  | none => .error ⟨401, "Invalid session"⟩
  | some _ =>
    let code := (jsToUpper rawCode)
    match st.rooms code with
    | none => .error ⟨404, "Room not found"⟩
    | some room =>
      if playerId ∉ room.players then .error ⟨403, "Not in room"⟩
      else
        let allMessages := (st.chatMessages code).getD []
        .ok (allMessages.filter (chatVisible playerId))

/-- The session handler: an unknown or absent player id gets a fresh record
    with a random avatar.  The fresh uuid and the randomly drawn emoji are
    threaded as arguments. -/
def getOrCreateSession (playerId emoji : String) (st : ServerState) : ServerState :=
  if (st.players playerId).isSome then st
  else
    let p : Player :=
      { id := playerId, username := none, emoji := emoji, roomCode := none, isHost := false }
    { st with players := mapSet st.players playerId p }

/-- Well-formedness of a rooms map: every stored room has a non-empty,
    duplicate-free member list containing its host. -/
def RoomsMapWF (m : String → Option Room) : Prop :=
  ∀ code room, m code = some room →
    room.players ≠ [] ∧ room.hostId ∈ room.players ∧ room.players.Nodup

/-- Well-formedness of the rooms registry of a state. -/
def RoomsWF (st : ServerState) : Prop := RoomsMapWF st.rooms

/-- One server operation, as a transition on states.  Freshness of the
    generated room code is recorded on the create step, and the shuffle
    oracles of the assign step are required to be permutations of the lists
    the JS sort permutes. -/
inductive Step (catalog : String → Option RoleSetData) : ServerState → ServerState → Prop
  | session (playerId emoji : String) (st : ServerState) :
      Step catalog st (getOrCreateSession playerId emoji st)
  | create (playerId newCode : String) (now : Nat) (st : ServerState)
      (hfresh : st.rooms newCode = none) :
      Step catalog st (createRoom playerId newCode now st).2
  | join (playerId rawCode : String) (st : ServerState) :
      Step catalog st (joinRoom playerId rawCode st).2
  | leave (playerId : String) (st : ServerState) :
      Step catalog st (leaveRoomApi playerId st).2
  | roleSet (playerId rawCode setId : String) (st : ServerState) :
      Step catalog st (setRoleSet catalog playerId rawCode setId st).2
  | selRoles (playerId rawCode : String) (submitted : List Role) (st : ServerState) :
      Step catalog st (setSelectedRoles catalog playerId rawCode submitted st).2
  | order (playerId rawCode : String) (ord : List String) (st : ServerState) :
      Step catalog st (setPlayerOrder playerId rawCode ord st).2
  | assign (playerId rawCode : String) (shufP : List String) (shufR : List Role)
      (st : ServerState)
      (hperm : ∀ room, st.rooms (jsToUpper rawCode) = some room →
        shufP.Perm (room.players.filter (fun pid => pid ≠ room.hostId)) ∧
        shufR.Perm room.selectedRoles) :
      Step catalog st (assignRoles playerId rawCode shufP shufR st).2
  | reset (playerId rawCode : String) (st : ServerState) :
      Step catalog st (resetRoles playerId rawCode st).2
  | kill (playerId rawCode target : String) (st : ServerState) :
      Step catalog st (killPlayer playerId rawCode target st).2
  | revive (playerId rawCode target : String) (st : ServerState) :
      Step catalog st (revivePlayer playerId rawCode target st).2
  | drunk (playerId rawCode target : String) (st : ServerState) :
      Step catalog st (markDrunk playerId rawCode target st).2
  | undrunk (playerId rawCode target : String) (st : ServerState) :
      Step catalog st (unmarkDrunk playerId rawCode target st).2
  | chat (playerId rawCode content : String) (recip : Option String) (now : Nat)
      (st : ServerState) :
      Step catalog st (sendChat playerId rawCode content recip now st).2

/-- Reachability by any sequence of server operations. -/
def Reachable (catalog : String → Option RoleSetData) : ServerState → ServerState → Prop :=
  Relation.ReflTransGen (Step catalog)

/-! Concrete fixtures used by the closed witness and counterexample
    theorems below. -/

/-- A sample townsfolk role. -/
def roleChef : Role := { name := "Chef", description := "d1", category := "Townsfolk" }

/-- A sample outsider role. -/
def roleButler : Role := { name := "Butler", description := "d2", category := "Outsiders" }

/-- Fixture room RMAA: host H with members A and B and two selected roles. -/
def wRoomA : Room :=
  { code := "RMAA", hostId := "H", players := ["H", "A", "B"], createdAt := 0
    selectedRoles := [roleChef, roleButler], rolesAssigned := false, roleSet := defaultRoleSet }

/-- Fixture room RMBB: host H2 with one member C but two selected roles, so
    the assign counts mismatch. -/
def wRoomB : Room :=
  { code := "RMBB", hostId := "H2", players := ["H2", "C"], createdAt := 0
    selectedRoles := [roleChef, roleButler], rolesAssigned := false, roleSet := defaultRoleSet }

/-- Fixture room RMCC: host H3 alone. -/
def wRoomC : Room :=
  { code := "RMCC", hostId := "H3", players := ["H3"], createdAt := 0
    selectedRoles := [], rolesAssigned := false, roleSet := defaultRoleSet }

/-- Fixture member record. -/
def wPlayerIn (id code : String) : Player :=
  { id := id, username := none, emoji := "🐱", roomCode := some code, isHost := false }

/-- Fixture broadcast message from the host. -/
def wMsg1 : ChatMessage :=
  { id := "1", senderId := "H", senderEmoji := "🐱", senderUsername := none, isFromHost := true
    recipientId := none, content := "hello", timestamp := 1 }

/-- Fixture DM from the host to A. -/
def wMsg2 : ChatMessage :=
  { id := "2", senderId := "H", senderEmoji := "🐱", senderUsername := none, isFromHost := true
    recipientId := some "A", content := "psst A", timestamp := 2 }

/-- Fixture DM from the host to B. -/
def wMsg3 : ChatMessage :=
  { id := "3", senderId := "H", senderEmoji := "🐱", senderUsername := none, isFromHost := true
    recipientId := some "B", content := "psst B", timestamp := 3 }

/-- Fixture player record for L, whose username triggers the avatar
    override. -/
def wPlayerL : Player :=
  { id := "L", username := some "Luc", emoji := "🐶", roomCode := none, isHost := false }

/-- The fixture server state used by the witness theorems: three rooms, a
    stale id in the dead set of RMAA, a prior role for A, and a short chat
    log in RMAA. -/
def wState : ServerState :=
  { rooms := fun c =>
      if c = "RMAA" then some wRoomA
      else if c = "RMBB" then some wRoomB
      else if c = "RMCC" then some wRoomC
      else none
    players := fun t =>
      if t = "H" ∨ t = "A" ∨ t = "B" then some (wPlayerIn t "RMAA")
      else if t = "H2" ∨ t = "C" then some (wPlayerIn t "RMBB")
      else if t = "H3" then some (wPlayerIn t "RMCC")
      else if t = "L" then some wPlayerL
      else none
    playerRoles := fun t => if t = "A" then some roleChef else none
    deadPlayers := fun c => if c = "RMAA" then some ["GHOST"] else none
    drunkPlayers := fun _ => none
    playerOrder := fun _ => none
    chatMessages := fun c => if c = "RMAA" then some [wMsg1, wMsg2, wMsg3] else none }

/-! ### Helper lemmas about the map combinators and the assignment loop -/

theorem foldl_mapDel_eq (ps : List String) (m : String → Option Role) (q : String) :
    ps.foldl (fun acc pid => mapDel acc pid) m q = if q ∈ ps then none else m q := by
  induction ps generalizing m with
  | nil => simp
  | cons p rest ih =>
    simp only [List.foldl_cons, ih, List.mem_cons]
    by_cases hq : q ∈ rest
    · simp [hq]
    · by_cases hqp : q = p <;> simp [mapDel, hq, hqp]

theorem foldl_assignInsert_not_mem (ps : List String) (rs : List Role)
    (m : String → Option Role) (q : String) (hq : q ∉ ps) :
    (ps.zip rs).foldl assignInsert m q = m q := by
  induction ps generalizing rs m with
  | nil => simp
  | cons p rest ih =>
    cases rs with
    | nil => simp
    | cons r rrest =>
      simp only [List.zip_cons_cons, List.foldl_cons]
      rw [ih _ _ (fun h => hq (List.mem_cons_of_mem _ h))]
      have hqp : q ≠ p := fun h => hq (h ▸ List.mem_cons_self p rest)
      simp [assignInsert, mapSet, hqp]

theorem foldl_assignInsert_map (ps : List String) (rs : List Role) (m : String → Option Role)
    (hnd : ps.Nodup) (hlen : ps.length = rs.length) :
    ps.map ((ps.zip rs).foldl assignInsert m) = rs.map some := by
  induction ps generalizing rs m with
  | nil =>
    cases rs with
    | nil => simp
    | cons r rrest => simp at hlen
  | cons p rest ih =>
    cases rs with
    | nil => simp at hlen
    | cons r rrest =>
      have hnd' := List.nodup_cons.mp hnd
      simp only [List.zip_cons_cons, List.foldl_cons, List.map_cons]
      have h1 : (rest.zip rrest).foldl assignInsert (assignInsert m (p, r)) p = some r := by
        rw [foldl_assignInsert_not_mem _ _ _ _ hnd'.1]
        simp [assignInsert, mapSet]
      have h2 : rest.map ((rest.zip rrest).foldl assignInsert (assignInsert m (p, r)))
          = rrest.map some := ih _ _ hnd'.2 (Nat.succ_injective hlen)
      rw [h1, h2]

/-! ### C1: successful role assignment -/

/-- C1: when the caller is the host, the selected-roles list is non-empty
    and the count of non-host members equals the count of selected roles,
    the assign-roles operation succeeds; afterwards every non-host member
    holds exactly one role, the host holds none, the shuffled members are
    paired positionally with the shuffled roles, and the multiset of roles
    held by the non-host members is exactly the selected-roles list. -/
theorem assignRoles_assigns
    (st : ServerState) (playerId rawCode : String) (room : Room) (p : Player)
    (shufP : List String) (shufR : List Role)
    (hses : st.players playerId = some p)
    (hroom : st.rooms (jsToUpper rawCode) = some room)
    (hhost : room.hostId = playerId)
    (hhmem : room.hostId ∈ room.players)
    (hnodup : room.players.Nodup)
    (hsel : room.selectedRoles ≠ [])
    (hcount : (room.players.filter (fun pid => pid ≠ room.hostId)).length
      = room.selectedRoles.length)
    (hpermP : shufP.Perm (room.players.filter (fun pid => pid ≠ room.hostId)))
    (hpermR : shufR.Perm room.selectedRoles) :
    (assignRoles playerId rawCode shufP shufR st).1 = .ok shufR.length ∧
    (∀ q ∈ room.players, q ≠ room.hostId →
      ((assignRoles playerId rawCode shufP shufR st).2.playerRoles q).isSome) ∧
    (assignRoles playerId rawCode shufP shufR st).2.playerRoles room.hostId = none ∧
    shufP.map (assignRoles playerId rawCode shufP shufR st).2.playerRoles = shufR.map some ∧
    ((room.players.filter (fun pid => pid ≠ room.hostId)).map
        (assignRoles playerId rawCode shufP shufR st).2.playerRoles).Perm
      (room.selectedRoles.map some) := by
  have hred : assignRoles playerId rawCode shufP shufR st =
      (.ok shufR.length,
        { st with
          playerRoles := (shufP.zip shufR).foldl assignInsert
            (room.players.foldl (fun m pid => mapDel m pid) st.playerRoles)
          rooms := mapSet st.rooms (jsToUpper rawCode) { room with rolesAssigned := true } }) := by
    simp only [assignRoles, hses, hroom]
    rw [if_neg (not_not_intro hhost), if_neg hsel, if_neg (not_not_intro hcount)]
  have h1 : (assignRoles playerId rawCode shufP shufR st).1 = .ok shufR.length := by
    rw [hred]
  have hpr : (assignRoles playerId rawCode shufP shufR st).2.playerRoles
      = (shufP.zip shufR).foldl assignInsert
          (room.players.foldl (fun m pid => mapDel m pid) st.playerRoles) := by
    rw [hred]
  have hlenPR : shufP.length = shufR.length := by
    rw [hpermP.length_eq, hpermR.length_eq, hcount]
  have hndP : shufP.Nodup := hpermP.nodup_iff.mpr (hnodup.filter _)
  have hmap : shufP.map ((shufP.zip shufR).foldl assignInsert
      (room.players.foldl (fun m pid => mapDel m pid) st.playerRoles)) = shufR.map some :=
    foldl_assignInsert_map _ _ _ hndP hlenPR
  refine ⟨h1, ?_, ?_, ?_, ?_⟩
  · intro q hq hqh
    rw [hpr]
    have hqe : q ∈ shufP := hpermP.mem_iff.mpr (List.mem_filter.mpr ⟨hq, by simp [hqh]⟩)
    have hin : (shufP.zip shufR).foldl assignInsert
        (room.players.foldl (fun m pid => mapDel m pid) st.playerRoles) q ∈ shufR.map some :=
      hmap ▸ List.mem_map_of_mem _ hqe
    rcases List.mem_map.mp hin with ⟨r, _, hr⟩
    rw [← hr]
    rfl
  · rw [hpr]
    have hnot : room.hostId ∉ shufP := by
      rw [hpermP.mem_iff]
      intro hmemf
      have := (List.mem_filter.mp hmemf).2
      simp at this
    rw [foldl_assignInsert_not_mem _ _ _ _ hnot, foldl_mapDel_eq]
    simp [hhmem]
  · rw [hpr]
    exact hmap
  · rw [hpr]
    have hsr := hpermR.map some
    rw [← hmap] at hsr
    exact (hpermP.map _).symm.trans hsr

/-- Witness for C1 at the fixture state: the host of RMAA assigns the two
    selected roles to the two non-host members. -/
theorem assignRoles_assigns_witness :
    (assignRoles "H" "RMAA" ["B", "A"] [roleButler, roleChef] wState).1 = .ok 2 ∧
    (assignRoles "H" "RMAA" ["B", "A"] [roleButler, roleChef] wState).2.playerRoles "H"
      = none ∧
    ["B", "A"].map
        (assignRoles "H" "RMAA" ["B", "A"] [roleButler, roleChef] wState).2.playerRoles
      = [some roleButler, some roleChef] := by
  have h := assignRoles_assigns wState "H" "RMAA" wRoomA (wPlayerIn "H" "RMAA")
    ["B", "A"] [roleButler, roleChef]
    (by decide) (by decide) (by decide) (by decide) (by decide) (by decide) (by decide)
    (by decide) (by decide)
  exact ⟨h.1, h.2.2.1, h.2.2.2.1⟩

/-! ### C2: count mismatch rejection -/

/-- C2: when the caller is the host, the selected-roles list is non-empty
    and the count of non-host members differs from the count of selected
    roles, the assign-roles operation fails with the 400 error whose
    message states both counts, and the whole state, in particular the
    player-to-role mapping, is left unchanged. -/
theorem assignRoles_countMismatch
    (st : ServerState) (playerId rawCode : String) (room : Room) (p : Player)
    (shufP : List String) (shufR : List Role)
    (hses : st.players playerId = some p)
    (hroom : st.rooms (jsToUpper rawCode) = some room)
    (hhost : room.hostId = playerId)
    (hsel : room.selectedRoles ≠ [])
    (hcount : (room.players.filter (fun pid => pid ≠ room.hostId)).length
      ≠ room.selectedRoles.length) :
    (assignRoles playerId rawCode shufP shufR st).1 =
      .error ⟨400, countMismatchMsg
        (room.players.filter (fun pid => pid ≠ room.hostId)).length
        room.selectedRoles.length⟩ ∧
    (assignRoles playerId rawCode shufP shufR st).2 = st ∧
    (assignRoles playerId rawCode shufP shufR st).2.playerRoles = st.playerRoles := by
  have hred : assignRoles playerId rawCode shufP shufR st =
      (.error ⟨400, countMismatchMsg
        (room.players.filter (fun pid => pid ≠ room.hostId)).length
        room.selectedRoles.length⟩, st) := by
    simp only [assignRoles, hses, hroom]
    rw [if_neg (not_not_intro hhost), if_neg hsel, if_pos hcount]
  refine ⟨?_, ?_, ?_⟩ <;> rw [hred]

/-- Witness for C2 at the fixture state: room RMBB has one non-host member
    but two selected roles, and the error message states the counts 1 and
    2. -/
theorem assignRoles_countMismatch_witness :
    (assignRoles "H2" "RMBB" [] [] wState).1 =
      .error ⟨400, "Role count must match player count. You have 1 players but 2 roles selected."⟩ ∧
    (assignRoles "H2" "RMBB" [] [] wState).2 = wState := by
  have h := assignRoles_countMismatch wState "H2" "RMBB" wRoomB (wPlayerIn "H2" "RMBB")
    [] [] (by decide) (by decide) (by decide) (by decide) (by decide)
  refine ⟨?_, h.2.1⟩
  rw [h.1]
  rfl

/-! ### Lemmas about leaveRoom and the leave path of create and join -/

theorem headI_mem_of_ne_nil (l : List String) (h : l ≠ []) : l.headI ∈ l := by
  cases l with
  | nil => exact absurd rfl h
  | cons a t => exact List.mem_cons_self a t

theorem filter_ne_headI (l : List String) (pid : String)
    (hnn : l.filter (fun id => id ≠ pid) ≠ []) :
    (l.filter (fun id => id ≠ pid)).headI ≠ pid := by
  have hmem := headI_mem_of_ne_nil _ hnn
  have := (List.mem_filter.mp hmem).2
  simpa using this

theorem leaveRoom_rooms_keep (st : ServerState) (pid code : String) (room : Room)
    (h : st.rooms code = some room)
    (hne : room.players.filter (fun id => id ≠ pid) ≠ []) :
    (leaveRoom pid code st).rooms code = some
      { room with
        players := room.players.filter (fun id => id ≠ pid)
        hostId := if room.hostId = pid
          then (room.players.filter (fun id => id ≠ pid)).headI else room.hostId } := by
  have hfe : (room.players.filter (fun id => id ≠ pid)).isEmpty = false := by
    simpa [List.isEmpty_iff] using hne
  simp only [leaveRoom, h, hfe]
  simp [mapSet]

theorem leaveRoom_playerRoles_of_some (st : ServerState) (pid code : String) (room0 : Room)
    (h : st.rooms code = some room0) :
    (leaveRoom pid code st).playerRoles = mapDel st.playerRoles pid := by
  unfold leaveRoom
  simp only [h]
  split <;> rfl

theorem leaveRoom_players_self (st : ServerState) (pid code : String) (p : Player)
    (hses : st.players pid = some p) :
    (leaveRoom pid code st).players pid = some p ∨
    (leaveRoom pid code st).players pid = some { p with roomCode := none, isHost := false } := by
  unfold leaveRoom
  cases h : st.rooms code with
  | none => exact Or.inl hses
  | some room0 =>
    by_cases hfe : (room0.players.filter (fun id => id ≠ pid)).isEmpty = true
    · refine Or.inr ?_
      simp only [hfe]
      simp [hses]
    · refine Or.inr ?_
      simp only [eq_false_of_ne_true hfe]
      by_cases hh : room0.hostId = pid
      · have hnn : room0.players.filter (fun id => id ≠ pid) ≠ [] := by
          intro hc
          rw [hc] at hfe
          exact hfe rfl
        have hne2 : ¬ pid = (room0.players.filter (fun id => id ≠ pid)).headI :=
          fun hc => filter_ne_headI _ _ hnn hc.symm
        have hne3 : ¬ pid = (room0.players.filter (fun id => !decide (id = pid))).headI := by
          simpa using hne2
        simp [hh, hses, hne3]
      · simp [hh, hses]

theorem leaveCurrentRoom_players_self (pid : String) (p : Player) (st : ServerState)
    (hses : st.players pid = some p) :
    ∃ q, (leaveCurrentRoom pid p st).players pid = some q ∧
      q.username = p.username ∧ q.emoji = p.emoji := by
  unfold leaveCurrentRoom
  cases hrc : p.roomCode with
  | none => exact ⟨p, hses, rfl, rfl⟩
  | some rc =>
    by_cases hex : (st.rooms rc).isSome
    · simp only [hex, if_true]
      rcases leaveRoom_players_self st pid rc p hses with h | h
      · exact ⟨p, h, rfl, rfl⟩
      · exact ⟨{ p with roomCode := none, isHost := false }, h, rfl, rfl⟩
    · simp only [hex, if_false]
      exact ⟨p, hses, rfl, rfl⟩

theorem lucEmoji_emoji (p : Player) :
    (lucEmoji p).emoji = (if jsToLower (p.username.getD "") = "luc" ∨
      jsToLower (p.username.getD "") = "lucas" then "💩" else p.emoji) := by
  unfold lucEmoji
  split <;> simp_all

/-! ### C3: host transfer and room deletion on leave -/

/-- C3: when the host leaves a room and at least one member remains, the
    room keeps existing with the member at index 0 of the member list
    after removal as the new host; when the last member leaves, the room
    entry and all four per-room side tables are deleted and any subsequent
    join with that code fails with the 404 Room not found error. -/
theorem leaveRoom_hostTransfer_or_delete
    (st : ServerState) (code pid : String) (room : Room)
    (h : st.rooms code = some room) (hhost : room.hostId = pid) :
    (room.players.filter (fun id => id ≠ pid) ≠ [] →
      ∃ room1, (leaveRoom pid code st).rooms code = some room1 ∧
        room1.hostId = (room.players.filter (fun id => id ≠ pid)).headI ∧
        room1.players = room.players.filter (fun id => id ≠ pid)) ∧
    (room.players.filter (fun id => id ≠ pid) = [] →
      (leaveRoom pid code st).rooms code = none ∧
      (leaveRoom pid code st).deadPlayers code = none ∧
      (leaveRoom pid code st).drunkPlayers code = none ∧
      (leaveRoom pid code st).playerOrder code = none ∧
      (leaveRoom pid code st).chatMessages code = none ∧
      ∀ pid2 p2 rawCode, (leaveRoom pid code st).players pid2 = some p2 →
        jsToUpper rawCode = code →
        (joinRoom pid2 rawCode (leaveRoom pid code st)).1
          = .error ⟨404, "Room not found"⟩) := by
  constructor
  · intro hne
    refine ⟨_, leaveRoom_rooms_keep st pid code room h hne, ?_, rfl⟩
    simp [hhost]
  · intro hfe
    have hfe' : (room.players.filter (fun id => id ≠ pid)).isEmpty = true := by
      rw [hfe]
      rfl
    have hdel : (leaveRoom pid code st).rooms code = none ∧
        (leaveRoom pid code st).deadPlayers code = none ∧
        (leaveRoom pid code st).drunkPlayers code = none ∧
        (leaveRoom pid code st).playerOrder code = none ∧
        (leaveRoom pid code st).chatMessages code = none := by
      simp only [leaveRoom, h, hfe']
      simp [mapDel]
    refine ⟨hdel.1, hdel.2.1, hdel.2.2.1, hdel.2.2.2.1, hdel.2.2.2.2, ?_⟩
    intro pid2 p2 rawCode hp2 hup
    have hnone : ((leaveRoom pid code st).rooms (jsToUpper rawCode)).isNone = true := by
      rw [hup, hdel.1]
      rfl
    simp only [joinRoom, hp2, hnone]
    rfl

/-- Witness for C3 at the fixture state: H leaving RMAA makes A the host,
    and H3 leaving RMCC deletes the room so that a later join of RMCC
    fails with 404. -/
theorem leaveRoom_hostTransfer_or_delete_witness :
    (∃ room1, (leaveRoom "H" "RMAA" wState).rooms "RMAA" = some room1 ∧
      room1.hostId = "A" ∧ room1.players = ["A", "B"]) ∧
    (leaveRoom "H3" "RMCC" wState).rooms "RMCC" = none ∧
    (joinRoom "A" "rmcc" (leaveRoom "H3" "RMCC" wState)).1
      = .error ⟨404, "Room not found"⟩ := by
  have hA := leaveRoom_hostTransfer_or_delete wState "RMAA" "H" wRoomA (by decide) (by decide)
  have hC := leaveRoom_hostTransfer_or_delete wState "RMCC" "H3" wRoomC (by decide) (by decide)
  refine ⟨?_, (hC.2 (by decide)).1, ?_⟩
  · rcases hA.1 (by decide) with ⟨room1, hr, hh, hp⟩
    refine ⟨room1, hr, ?_, ?_⟩
    · rw [hh]
      decide
    · rw [hp]
      decide
  · exact (hC.2 (by decide)).2.2.2.2.2 "A" (wPlayerIn "A" "RMAA") "rmcc" (by decide) (by decide)

/-! ### C5: join of an already-joined member is not idempotent -/

/-- C5 counterexample: A is already a member of RMAA whose member list is
    [H, A, B]; joining again moves A to the end of the list and clears the
    prior role of A, so the member list and the side tables do change. -/
theorem joinRoom_not_idempotent :
    ((joinRoom "A" "RMAA" wState).2.rooms "RMAA").map Room.players = some ["H", "B", "A"] ∧
    (wState.rooms "RMAA").map Room.players = some ["H", "A", "B"] ∧
    (joinRoom "A" "RMAA" wState).2.playerRoles "A" = none ∧
    wState.playerRoles "A" = some roleChef := by
  refine ⟨?_, ?_, ?_, ?_⟩ <;> decide

/-- C5 amended: a join by a player who is already a member first runs the
    leave path (removing the player, clearing the role of the player and
    transferring the host when the player was host) and then appends the
    player at the end of the member list; the member set is restored but
    neither the order nor the host nor the role table. -/
theorem joinRoom_rejoin_appends
    (st : ServerState) (pid rawCode : String) (room : Room) (p : Player)
    (hses : st.players pid = some p)
    (hroom : st.rooms (jsToUpper rawCode) = some room)
    (hrc : p.roomCode = some (jsToUpper rawCode))
    (hrem : room.players.filter (fun id => id ≠ pid) ≠ []) :
    ∃ room2, (joinRoom pid rawCode st).2.rooms (jsToUpper rawCode) = some room2 ∧
      room2.players = room.players.filter (fun id => id ≠ pid) ++ [pid] ∧
      room2.hostId = (if room.hostId = pid
        then (room.players.filter (fun id => id ≠ pid)).headI else room.hostId) ∧
      (joinRoom pid rawCode st).2.playerRoles pid = none ∧
      ∃ out, (joinRoom pid rawCode st).1 = .ok out := by
  have hcode : (st.rooms (jsToUpper rawCode)).isNone = false := by
    simp [hroom]
  have hlcr : leaveCurrentRoom pid p st = leaveRoom pid (jsToUpper rawCode) st := by
    simp [leaveCurrentRoom, hrc, hroom]
  have hlr := leaveRoom_rooms_keep st pid (jsToUpper rawCode) room hroom hrem
  have hnotmem : pid ∉ room.players.filter (fun id => id ≠ pid) := by
    intro hc
    have := (List.mem_filter.mp hc).2
    simp at this
  have hlpr : (leaveRoom pid (jsToUpper rawCode) st).playerRoles pid = none := by
    rw [leaveRoom_playerRoles_of_some st pid (jsToUpper rawCode) room hroom]
    simp [mapDel]
  simp only [joinRoom, hses, hcode, hlcr, hlr, Bool.false_eq_true, if_false]
  rw [if_neg hnotmem]
  refine ⟨{ room with
      players := room.players.filter (fun id => id ≠ pid) ++ [pid]
      hostId := if room.hostId = pid
        then (room.players.filter (fun id => id ≠ pid)).headI else room.hostId },
    ?_, rfl, rfl, hlpr, _, rfl⟩
  simp [mapSet]

/-- Witness for the amended C5 at the fixture state: A rejoins RMAA and
    ends up at the end of the member list with the prior role cleared. -/
theorem joinRoom_rejoin_appends_witness :
    ∃ room2, (joinRoom "A" "RMAA" wState).2.rooms (jsToUpper "RMAA") = some room2 ∧
      room2.players = ["H", "B", "A"] ∧
      (joinRoom "A" "RMAA" wState).2.playerRoles "A" = none := by
  obtain ⟨room2, h1, h2, h3, h4, h5⟩ := joinRoom_rejoin_appends wState "A" "RMAA" wRoomA
    (wPlayerIn "A" "RMAA") (by decide) (by decide) (by decide) (by decide)
  refine ⟨room2, h1, ?_, h4⟩
  rw [h2]
  decide

/-! ### C10: the luc and lucas avatar override -/

/-- C10: on create, and on join of an existing room, the avatar of the
    calling player is overwritten with 💩 exactly when the lowercased
    username is luc or lucas, and otherwise keeps its prior value. -/
theorem lucOverride
    (st : ServerState) (pid newCode rawCode : String) (now : Nat) (p : Player)
    (hses : st.players pid = some p) :
    (∃ p3, (createRoom pid newCode now st).2.players pid = some p3 ∧
      p3.emoji = (if jsToLower (p.username.getD "") = "luc" ∨
        jsToLower (p.username.getD "") = "lucas" then "💩" else p.emoji)) ∧
    ((st.rooms (jsToUpper rawCode)).isSome →
      ∃ p3, (joinRoom pid rawCode st).2.players pid = some p3 ∧
        p3.emoji = (if jsToLower (p.username.getD "") = "luc" ∨
          jsToLower (p.username.getD "") = "lucas" then "💩" else p.emoji)) := by
  obtain ⟨q, hq, hqu, hqe⟩ := leaveCurrentRoom_players_self pid p st hses
  have hemoji : (lucEmoji q).emoji
      = (if jsToLower (p.username.getD "") = "luc" ∨
        jsToLower (p.username.getD "") = "lucas" then "💩" else p.emoji) := by
    rw [lucEmoji_emoji, hqu, hqe]
  constructor
  · simp only [createRoom, hses, hq, Option.getD_some]
    refine ⟨{ lucEmoji q with roomCode := some newCode, isHost := true }, ?_, hemoji⟩
    simp [mapSet]
  · intro hsome
    have hcode : (st.rooms (jsToUpper rawCode)).isNone = false := by
      rcases ho : st.rooms (jsToUpper rawCode) with _ | room
      · rw [ho] at hsome
        cases hsome
      · rfl
    simp only [joinRoom, hses, hcode, Bool.false_eq_true, if_false]
    rcases hsr : (leaveCurrentRoom pid p st).rooms (jsToUpper rawCode) with _ | room
    · simp only [hsr, hq, Option.getD_some]
      refine ⟨lucEmoji q, ?_, hemoji⟩
      simp [mapSet]
    · simp only [hsr, hq, Option.getD_some]
      refine ⟨{ lucEmoji q with roomCode := some (jsToUpper rawCode), isHost := (if pid ∈ room.players then room else { room with players := room.players ++ [pid] } : Room).hostId = pid }, ?_, hemoji⟩
      simp [mapSet]

/-- Witness for C10 at the fixture state: creating a room as L (username
    Luc) flips the avatar to 💩, while creating as A (no username) keeps
    the cat avatar. -/
theorem lucOverride_witness :
    (∃ p3, (createRoom "L" "RMDD" 5 wState).2.players "L" = some p3 ∧ p3.emoji = "💩") ∧
    (∃ p3, (createRoom "A" "RMEE" 5 wState).2.players "A" = some p3 ∧ p3.emoji = "🐱") := by
  obtain ⟨⟨p3, hp3, he3⟩, _⟩ := lucOverride wState "L" "RMDD" "rmaa" 5 wPlayerL (by decide)
  obtain ⟨⟨q3, hq3, heq⟩, _⟩ :=
    lucOverride wState "A" "RMEE" "rmaa" 5 (wPlayerIn "A" "RMAA") (by decide)
  refine ⟨⟨p3, hp3, ?_⟩, ⟨q3, hq3, ?_⟩⟩
  · rw [he3]
    decide
  · rw [heq]
    decide

/-! ### C6: the effective seating order -/

/-- C6 counterexample: the player-order handler accepts the duplicated
    order [H3, H3] for room RMCC (whose member set is just H3), and the
    effective order computed on read then lists the member H3 twice, not
    exactly once. -/
theorem effectiveOrder_duplicate_counterexample :
    (setPlayerOrder "H3" "RMCC" ["H3", "H3"] wState).2.playerOrder "RMCC"
      = some ["H3", "H3"] ∧
    getRoomOrder "RMCC" (setPlayerOrder "H3" "RMCC" ["H3", "H3"] wState).2
      = some ["H3", "H3"] ∧
    (["H3", "H3"] : List String).count "H3" = 2 := by
  refine ⟨?_, ?_, ?_⟩ <;> decide

/-- C6 amended: provided the stored order is duplicate-free (the reorder
    handler will happily store client-supplied duplicates) and the member
    list is duplicate-free (which the registry maintains), the effective
    order contains each current member exactly once and nothing else;
    stored members keep their stored relative order and the members
    missing from the stored order are appended in membership order.  An
    absent stored order yields the membership order itself. -/
theorem effectiveOrder_partition
    (stored members : List String) (hs : stored.Nodup) (hm : members.Nodup) :
    (∀ p ∈ members, (effectiveOrder (some stored) members).count p = 1) ∧
    (∀ p ∈ effectiveOrder (some stored) members, p ∈ members) ∧
    effectiveOrder (some stored) members
      = stored.filter (fun id => id ∈ members)
        ++ members.filter (fun id => id ∉ stored.filter (fun x => x ∈ members)) ∧
    (stored.filter (fun id => id ∈ members)).Sublist stored ∧
    (members.filter (fun id => id ∉ stored.filter (fun x => x ∈ members))).Sublist members ∧
    effectiveOrder none members = members := by
  have hknd : (stored.filter (fun id => id ∈ members)).Nodup := hs.filter _
  refine ⟨?_, ?_, rfl, List.filter_sublist stored, List.filter_sublist members, ?_⟩
  · intro q hq
    simp only [effectiveOrder, Option.getD_some]
    rw [List.count_append]
    by_cases hk : q ∈ stored.filter (fun id => id ∈ members)
    · have hz : List.count q
          (members.filter (fun id => id ∉ stored.filter (fun x => x ∈ members))) = 0 := by
        refine List.count_eq_zero.mpr ?_
        intro hcq
        have h2 := (List.mem_filter.mp hcq).2
        rw [decide_eq_true_eq] at h2
        exact h2 hk
      rw [List.count_eq_one_of_mem hknd hk, hz]
    · have hz : List.count q (stored.filter (fun id => id ∈ members)) = 0 :=
        List.count_eq_zero.mpr hk
      have ho : List.count q
          (members.filter (fun id => id ∉ stored.filter (fun x => x ∈ members))) = 1 := by
        refine List.count_eq_one_of_mem (hm.filter _) ?_
        refine List.mem_filter.mpr ⟨hq, ?_⟩
        rw [decide_eq_true_eq]
        exact hk
      rw [hz, ho]
  · intro q hq
    simp only [effectiveOrder, Option.getD_some] at hq
    rcases List.mem_append.mp hq with hq | hq
    · have := (List.mem_filter.mp hq).2
      simpa using this
    · exact (List.mem_filter.mp hq).1
  · simp only [effectiveOrder, Option.getD_none]
    have h1 : members.filter (fun id => id ∈ members) = members :=
      List.filter_eq_self.mpr (fun a ha => by simpa using ha)
    have h2 : members.filter
        (fun id => id ∉ members.filter (fun x => x ∈ members)) = [] := by
      refine List.filter_eq_nil_iff.mpr ?_
      intro a ha
      simp only [decide_eq_true_eq]
      intro hno
      exact hno (List.mem_filter.mpr ⟨ha, by simpa using ha⟩)
    rw [h2, List.append_nil, h1]

/-- Witness for the amended C6: stored order [B, X] with membership
    [A, B] gives the effective order [B, A], one occurrence per member. -/
theorem effectiveOrder_partition_witness :
    (effectiveOrder (some ["B", "X"]) ["A", "B"]).count "A" = 1 ∧
    (effectiveOrder (some ["B", "X"]) ["A", "B"]).count "B" = 1 ∧
    effectiveOrder (some ["B", "X"]) ["A", "B"] = ["B", "A"] := by
  have h := effectiveOrder_partition ["B", "X"] ["A", "B"] (by decide) (by decide)
  exact ⟨h.1 "A" (by decide), h.1 "B" (by decide), by decide⟩

/-! ### C7: overlay operations and the membership check -/

/-- C7 counterexample: reviving the id GHOST, which is not a member of
    RMAA, succeeds instead of failing with PlayerNotInRoom, and it even
    removes the stale GHOST entry from the dead set of the room. -/
theorem revive_no_membership_check :
    ("GHOST" ∉ wRoomA.players) ∧
    (revivePlayer "H" "RMAA" "GHOST" wState).1 = .ok () ∧
    wState.deadPlayers "RMAA" = some ["GHOST"] ∧
    (revivePlayer "H" "RMAA" "GHOST" wState).2.deadPlayers "RMAA" = some [] ∧
    (unmarkDrunk "H" "RMAA" "GHOST" wState).1 = .ok () := by
  refine ⟨by decide, rfl, by decide, by decide, rfl⟩

/-- C7 amended: with a target that is not a current member, markDead and
    markDrunk fail with the 400 Player not in room error and leave the
    state unchanged, while revive and unmarkDrunk perform no membership
    check at all: they succeed for any target id, deleting it from the
    dead (respectively drunk) set of the room when that set exists. -/
theorem overlay_target_checks
    (st : ServerState) (playerId rawCode target : String) (room : Room) (p : Player)
    (hses : st.players playerId = some p)
    (hroom : st.rooms (jsToUpper rawCode) = some room)
    (hhost : room.hostId = playerId)
    (htgt : target ∉ room.players) :
    ((killPlayer playerId rawCode target st).1 = .error ⟨400, "Player not in room"⟩ ∧
      (killPlayer playerId rawCode target st).2 = st) ∧
    ((markDrunk playerId rawCode target st).1 = .error ⟨400, "Player not in room"⟩ ∧
      (markDrunk playerId rawCode target st).2 = st) ∧
    ((revivePlayer playerId rawCode target st).1 = .ok () ∧
      (revivePlayer playerId rawCode target st).2.deadPlayers (jsToUpper rawCode)
        = (st.deadPlayers (jsToUpper rawCode)).map
            (fun s => s.filter (fun x => x ≠ target))) ∧
    ((unmarkDrunk playerId rawCode target st).1 = .ok () ∧
      (unmarkDrunk playerId rawCode target st).2.drunkPlayers (jsToUpper rawCode)
        = (st.drunkPlayers (jsToUpper rawCode)).map
            (fun s => s.filter (fun x => x ≠ target))) := by
  refine ⟨⟨?_, ?_⟩, ⟨?_, ?_⟩, ?_, ?_⟩
  · simp only [killPlayer, hses, hroom]
    rw [if_neg (not_not_intro hhost), if_pos htgt]
  · simp only [killPlayer, hses, hroom]
    rw [if_neg (not_not_intro hhost), if_pos htgt]
  · simp only [markDrunk, hses, hroom]
    rw [if_neg (not_not_intro hhost), if_pos htgt]
  · simp only [markDrunk, hses, hroom]
    rw [if_neg (not_not_intro hhost), if_pos htgt]
  · simp only [revivePlayer, hses, hroom]
    rw [if_neg (not_not_intro hhost)]
    rcases hd : st.deadPlayers (jsToUpper rawCode) with _ | s
    · simp [hd]
    · simp [hd, mapSet]
  · simp only [unmarkDrunk, hses, hroom]
    rw [if_neg (not_not_intro hhost)]
    rcases hd : st.drunkPlayers (jsToUpper rawCode) with _ | s
    · simp [hd]
    · simp [hd, mapSet]

/-- Witness for the amended C7 at the fixture state, target GHOST in room
    RMAA. -/
theorem overlay_target_checks_witness :
    (killPlayer "H" "RMAA" "GHOST" wState).1 = .error ⟨400, "Player not in room"⟩ ∧
    (revivePlayer "H" "RMAA" "GHOST" wState).1 = .ok () ∧
    (revivePlayer "H" "RMAA" "GHOST" wState).2.deadPlayers "RMAA" = some [] := by
  have h := overlay_target_checks wState "H" "RMAA" "GHOST" wRoomA (wPlayerIn "H" "RMAA")
    (by decide) (by decide) (by decide) (by decide)
  refine ⟨h.1.1, h.2.2.1.1, ?_⟩
  have h2 := h.2.2.1.2
  rw [show jsToUpper "RMAA" = "RMAA" from by decide] at h2
  rw [h2]
  decide

/-! ### C8: chat history visibility -/

/-- C8: the chat history returned to a member of the room is a
    send-ordered sublist of the log that contains every broadcast
    message, never contains a DM whose recipient and sender are both
    different from the viewer, and contains every DM whose recipient or
    sender is the viewer. -/
theorem chatHistory_visibility
    (st : ServerState) (playerId rawCode : String) (room : Room) (p : Player)
    (hses : st.players playerId = some p)
    (hroom : st.rooms (jsToUpper rawCode) = some room)
    (hmem : playerId ∈ room.players)
    (hnorm : ∀ m ∈ (st.chatMessages (jsToUpper rawCode)).getD [], m.recipientId ≠ some "") :
    getChatHistory playerId rawCode st
      = .ok (((st.chatMessages (jsToUpper rawCode)).getD []).filter (chatVisible playerId)) ∧
    (((st.chatMessages (jsToUpper rawCode)).getD []).filter (chatVisible playerId)).Sublist
      ((st.chatMessages (jsToUpper rawCode)).getD []) ∧
    (∀ m ∈ (st.chatMessages (jsToUpper rawCode)).getD [], m.recipientId = none →
      m ∈ ((st.chatMessages (jsToUpper rawCode)).getD []).filter (chatVisible playerId)) ∧
    (∀ m ∈ ((st.chatMessages (jsToUpper rawCode)).getD []).filter (chatVisible playerId),
      ∀ r, m.recipientId = some r → r ≠ playerId → m.senderId ≠ playerId → False) ∧
    (∀ m ∈ (st.chatMessages (jsToUpper rawCode)).getD [],
      (m.recipientId = some playerId ∨ (m.recipientId ≠ none ∧ m.senderId = playerId)) →
      m ∈ ((st.chatMessages (jsToUpper rawCode)).getD []).filter (chatVisible playerId)) := by
  refine ⟨?_, List.filter_sublist _, ?_, ?_, ?_⟩
  · simp only [getChatHistory, hses, hroom]
    rw [if_neg (not_not_intro hmem)]
  · intro m hm hrec
    refine List.mem_filter.mpr ⟨hm, ?_⟩
    simp [chatVisible, hrec, truthy]
  · intro m hm r hrec hrp hsp
    have hmm := List.mem_of_mem_filter hm
    have hvis := (List.mem_filter.mp hm).2
    have hr0 : r ≠ "" := by
      intro hc
      exact hnorm m hmm (by rw [hrec, hc])
    rw [chatVisible, hrec] at hvis
    simp only [truthy] at hvis
    rw [if_neg (by simpa using hr0)] at hvis
    simp at hvis
    rcases hvis with hvis | hvis
    · exact hrp hvis
    · exact hsp hvis
  · intro m hm hvis
    refine List.mem_filter.mpr ⟨hm, ?_⟩
    rcases hvis with hrec | ⟨hne, hsend⟩
    · rw [chatVisible, hrec]
      by_cases ht : truthy (some playerId) = true
      · rw [if_neg (by simp [ht])]
        simp
      · rw [if_pos (by simpa using ht)]
    · rcases hr : m.recipientId with _ | r
      · exact absurd hr hne
      · rw [chatVisible, hr]
        by_cases ht : truthy (some r) = true
        · rw [if_neg (by simp [ht])]
          simp [hsend]
        · rw [if_pos (by simpa using ht)]

/-- Witness for C8 at the fixture state: viewer A sees the broadcast and
    the DM addressed to A, and not the DM addressed to B. -/
theorem chatHistory_visibility_witness :
    getChatHistory "A" "RMAA" wState = .ok [wMsg1, wMsg2] ∧
    wMsg3 ∉ [wMsg1, wMsg2] := by
  have h := chatHistory_visibility wState "A" "RMAA" wRoomA (wPlayerIn "A" "RMAA")
    (by decide) (by decide) (by decide) (by decide)
  refine ⟨?_, by decide⟩
  rw [h.1]
  have hlist : ((wState.chatMessages (jsToUpper "RMAA")).getD []).filter (chatVisible "A")
      = [wMsg1, wMsg2] := by decide
  rw [hlist]

/-! ### C9: chat message ids -/

/-- C9 counterexample: two distinct messages sent in the same wall-clock
    millisecond (to room RMBB) receive the same id 1000, so ids are not
    unique within the process. -/
theorem chatId_not_unique :
    ((((sendChat "H2" "RMBB" "second" none 1000
        (sendChat "H2" "RMBB" "first" none 1000 wState).2).2.chatMessages "RMBB").getD
      []).map ChatMessage.id) = ["1000", "1000"] ∧
    ((((sendChat "H2" "RMBB" "second" none 1000
        (sendChat "H2" "RMBB" "first" none 1000 wState).2).2.chatMessages "RMBB").getD
      []).map ChatMessage.content) = ["first", "second"] := by
  refine ⟨?_, ?_⟩ <;> decide

/-- C9 amended: a chat message is created with id equal to the decimal
    string of the wall-clock milliseconds at send time and a timestamp
    equal to that clock; ids are therefore non-decreasing in send order
    (the clock is non-decreasing) but not unique, since messages sent in
    the same millisecond share an id. -/
theorem sendChat_id_clock
    (st : ServerState) (playerId rawCode content : String) (recipientId : Option String)
    (now : Nat) (room : Room) (p : Player)
    (hses : st.players playerId = some p)
    (hroom : st.rooms (jsToUpper rawCode) = some room)
    (hmem : playerId ∈ room.players)
    (hcontent : jsTrim content ≠ "")
    (hlen : ¬ content.length > 500)
    (hrecip : ¬ (room.hostId ≠ playerId ∧ recipientId ≠ some room.hostId))
    (hrecip2 : ¬ (room.hostId = playerId ∧ truthy recipientId ∧
      recipientId.getD "" ∉ room.players))
    (hpw : ((st.chatMessages (jsToUpper rawCode)).getD []).Pairwise
      (fun a b => a.timestamp ≤ b.timestamp))
    (hbound : ∀ m ∈ (st.chatMessages (jsToUpper rawCode)).getD [], m.timestamp ≤ now) :
    ∃ msg, (sendChat playerId rawCode content recipientId now st).1 = .ok msg ∧
      msg.id = toString now ∧ msg.timestamp = now ∧
      (sendChat playerId rawCode content recipientId now st).2.chatMessages
        (jsToUpper rawCode)
        = some ((st.chatMessages (jsToUpper rawCode)).getD [] ++ [msg]) ∧
      (((st.chatMessages (jsToUpper rawCode)).getD []) ++ [msg]).Pairwise
        (fun a b => a.timestamp ≤ b.timestamp) := by
  refine ⟨{ id := toString now, senderId := playerId, senderEmoji := p.emoji
            senderUsername := p.username, isFromHost := room.hostId = playerId
            recipientId := if truthy recipientId then recipientId else none
            content := jsTrim content, timestamp := now }, ?_, rfl, rfl, ?_, ?_⟩
  · simp only [sendChat, hses, hroom]
    rw [if_neg (not_not_intro hmem), if_neg hcontent, if_neg hlen, if_neg hrecip,
      if_neg hrecip2]
  · simp only [sendChat, hses, hroom]
    rw [if_neg (not_not_intro hmem), if_neg hcontent, if_neg hlen, if_neg hrecip,
      if_neg hrecip2]
    show mapSet st.chatMessages (jsToUpper rawCode) _ (jsToUpper rawCode) = _
    simp [mapSet]
  · rw [List.pairwise_append]
    refine ⟨hpw, List.pairwise_singleton _ _, ?_⟩
    intro a ha b hb
    rcases List.mem_singleton.mp hb with rfl
    exact hbound a ha

/-- Witness for the amended C9 at the fixture state: the host of RMAA
    sends a broadcast at clock 100, and the new message carries id 100 on
    top of the sorted log. -/
theorem sendChat_id_clock_witness :
    ∃ msg, (sendChat "H" "RMAA" "hi" none 100 wState).1 = .ok msg ∧
      msg.id = "100" ∧ msg.timestamp = 100 := by
  obtain ⟨msg, h1, h2, h3, _, _⟩ := sendChat_id_clock wState "H" "RMAA" "hi" none 100
    wRoomA (wPlayerIn "H" "RMAA") (by decide) (by decide) (by decide) (by decide)
    (by decide) (by decide) (by decide) (by decide) (by decide)
  exact ⟨msg, h1, h2.trans (by decide), h3⟩

/-! ### C4: the host-membership invariant over all reachable states -/

theorem RoomsMapWF.set {m : String → Option Room} (h : RoomsMapWF m) {code : String}
    {room : Room} (h1 : room.players ≠ []) (h2 : room.hostId ∈ room.players)
    (h3 : room.players.Nodup) : RoomsMapWF (mapSet m code room) := by
  intro c r hc
  simp only [mapSet] at hc
  by_cases he : c = code
  · rw [if_pos he] at hc
    cases hc
    exact ⟨h1, h2, h3⟩
  · rw [if_neg he] at hc
    exact h c r hc

theorem RoomsMapWF.del {m : String → Option Room} (h : RoomsMapWF m) (code : String) :
    RoomsMapWF (mapDel m code) := by
  intro c r hc
  simp only [mapDel] at hc
  by_cases he : c = code
  · rw [if_pos he] at hc
    cases hc
  · rw [if_neg he] at hc
    exact h c r hc

theorem RoomsMapWF.setLike {m : String → Option Room} (h : RoomsMapWF m) {code : String}
    {room room1 : Room} (hl : m code = some room) (hp : room1.players = room.players)
    (hh : room1.hostId = room.hostId) : RoomsMapWF (mapSet m code room1) := by
  obtain ⟨h1, h2, h3⟩ := h code room hl
  refine RoomsMapWF.set h ?_ ?_ ?_
  · rw [hp]
    exact h1
  · rw [hp, hh]
    exact h2
  · rw [hp]
    exact h3

theorem leaveRoom_WF (st : ServerState) (pid code : String) (h : RoomsWF st) :
    RoomsWF (leaveRoom pid code st) := by
  unfold leaveRoom
  rcases hr : st.rooms code with _ | room0
  · exact h
  · obtain ⟨hp1, hp2, hp3⟩ := h code room0 hr
    dsimp only
    by_cases hfe : (room0.players.filter (fun id => id ≠ pid)).isEmpty = true
    · rw [if_pos hfe]
      exact RoomsMapWF.del h code
    · rw [if_neg hfe]
      have hne : room0.players.filter (fun id => id ≠ pid) ≠ [] := by
        intro hc
        rw [hc] at hfe
        exact hfe rfl
      refine RoomsMapWF.set h hne ?_ (hp3.filter _)
      by_cases hh : room0.hostId = pid
      · rw [if_pos hh]
        exact headI_mem_of_ne_nil _ hne
      · rw [if_neg hh]
        exact List.mem_filter.mpr ⟨hp2, by simpa using hh⟩

theorem leaveCurrentRoom_WF (pid : String) (p : Player) (st : ServerState)
    (h : RoomsWF st) : RoomsWF (leaveCurrentRoom pid p st) := by
  unfold leaveCurrentRoom
  rcases p.roomCode with _ | rc
  · exact h
  · dsimp only
    by_cases hex : (st.rooms rc).isSome = true
    · rw [if_pos hex]
      exact leaveRoom_WF st pid rc h
    · rw [if_neg hex]
      exact h

theorem getOrCreateSession_WF (pid emoji : String) (st : ServerState) (h : RoomsWF st) :
    RoomsWF (getOrCreateSession pid emoji st) := by
  unfold getOrCreateSession
  split
  · exact h
  · exact h

theorem createRoom_WF (pid newCode : String) (now : Nat) (st : ServerState)
    (h : RoomsWF st) : RoomsWF (createRoom pid newCode now st).2 := by
  unfold createRoom
  rcases hp : st.players pid with _ | p0
  · simp only [hp]
    exact h
  · simp only [hp]
    have h1 := leaveCurrentRoom_WF pid p0 st h
    refine RoomsMapWF.set h1 ?_ ?_ ?_
    · simp
    · simp
    · simp

theorem joinRoom_WF (pid rawCode : String) (st : ServerState) (h : RoomsWF st) :
    RoomsWF (joinRoom pid rawCode st).2 := by
  unfold joinRoom
  rcases hp : st.players pid with _ | p0
  · simp only [hp]
    exact h
  · simp only [hp]
    by_cases hn : (st.rooms (jsToUpper rawCode)).isNone = true
    · rw [if_pos hn]
      exact h
    · rw [if_neg hn]
      have h1 := leaveCurrentRoom_WF pid p0 st h
      rcases hsr : (leaveCurrentRoom pid p0 st).rooms (jsToUpper rawCode) with _ | room
      · simp only [hsr]
        exact h1
      · simp only [hsr]
        obtain ⟨hq1, hq2, hq3⟩ := h1 _ _ hsr
        by_cases hm2 : pid ∈ room.players
        · rw [if_pos hm2]
          exact RoomsMapWF.set h1 hq1 hq2 hq3
        · rw [if_neg hm2]
          refine RoomsMapWF.set h1 ?_ ?_ ?_
          · simp
          · exact List.mem_append.mpr (Or.inl hq2)
          · refine hq3.append (List.nodup_singleton pid) ?_
            intro a ha hb
            rw [List.mem_singleton.mp hb] at ha
            exact hm2 ha

theorem leaveRoomApi_WF (pid : String) (st : ServerState) (h : RoomsWF st) :
    RoomsWF (leaveRoomApi pid st).2 := by
  unfold leaveRoomApi
  rcases hp : st.players pid with _ | p0
  · simp only [hp]
    exact h
  · simp only [hp]
    rcases p0.roomCode with _ | rc
    · exact h
    · dsimp only
      by_cases hex : (st.rooms rc).isSome = true
      · rw [if_pos hex]
        exact leaveRoom_WF st pid rc h
      · rw [if_neg hex]
        exact h

theorem setRoleSet_WF (catalog : String → Option RoleSetData) (pid rawCode setId : String)
    (st : ServerState) (h : RoomsWF st) :
    RoomsWF (setRoleSet catalog pid rawCode setId st).2 := by
  unfold setRoleSet
  rcases hp : st.players pid with _ | p0
  · simp only [hp]
    exact h
  · simp only [hp]
    rcases hr : st.rooms (jsToUpper rawCode) with _ | room
    · simp only [hr]
      exact h
    · simp only [hr]
      split
      · exact h
      · rcases catalog setId with _ | d
        · exact h
        · exact RoomsMapWF.setLike h hr rfl rfl

theorem setSelectedRoles_WF (catalog : String → Option RoleSetData) (pid rawCode : String)
    (submitted : List Role) (st : ServerState) (h : RoomsWF st) :
    RoomsWF (setSelectedRoles catalog pid rawCode submitted st).2 := by
  unfold setSelectedRoles
  rcases hp : st.players pid with _ | p0
  · simp only [hp]
    exact h
  · simp only [hp]
    rcases hr : st.rooms (jsToUpper rawCode) with _ | room
    · simp only [hr]
      exact h
    · simp only [hr]
      split
      · exact h
      · exact RoomsMapWF.setLike h hr rfl rfl

theorem setPlayerOrder_WF (pid rawCode : String) (ord : List String) (st : ServerState)
    (h : RoomsWF st) : RoomsWF (setPlayerOrder pid rawCode ord st).2 := by
  unfold setPlayerOrder
  rcases hp : st.players pid with _ | p0
  · simp only [hp]
    exact h
  · simp only [hp]
    rcases hr : st.rooms (jsToUpper rawCode) with _ | room
    · simp only [hr]
      exact h
    · simp only [hr]
      split
      · exact h
      · exact h

theorem assignRoles_WF (pid rawCode : String) (shufP : List String) (shufR : List Role)
    (st : ServerState) (h : RoomsWF st) :
    RoomsWF (assignRoles pid rawCode shufP shufR st).2 := by
  unfold assignRoles
  rcases hp : st.players pid with _ | p0
  · simp only [hp]
    exact h
  · simp only [hp]
    rcases hr : st.rooms (jsToUpper rawCode) with _ | room
    · simp only [hr]
      exact h
    · simp only [hr]
      split
      · exact h
      · split
        · exact h
        · split
          · exact h
          · exact RoomsMapWF.setLike h hr rfl rfl

theorem resetRoles_WF (pid rawCode : String) (st : ServerState) (h : RoomsWF st) :
    RoomsWF (resetRoles pid rawCode st).2 := by
  unfold resetRoles
  rcases hp : st.players pid with _ | p0
  · simp only [hp]
    exact h
  · simp only [hp]
    rcases hr : st.rooms (jsToUpper rawCode) with _ | room
    · simp only [hr]
      exact h
    · simp only [hr]
      split
      · exact h
      · exact RoomsMapWF.setLike h hr rfl rfl

theorem killPlayer_WF (pid rawCode target : String) (st : ServerState) (h : RoomsWF st) :
    RoomsWF (killPlayer pid rawCode target st).2 := by
  unfold killPlayer
  rcases hp : st.players pid with _ | p0
  · simp only [hp]
    exact h
  · simp only [hp]
    rcases hr : st.rooms (jsToUpper rawCode) with _ | room
    · simp only [hr]
      exact h
    · simp only [hr]
      split
      · exact h
      · split
        · exact h
        · exact h

theorem revivePlayer_WF (pid rawCode target : String) (st : ServerState) (h : RoomsWF st) :
    RoomsWF (revivePlayer pid rawCode target st).2 := by
  unfold revivePlayer
  rcases hp : st.players pid with _ | p0
  · simp only [hp]
    exact h
  · simp only [hp]
    rcases hr : st.rooms (jsToUpper rawCode) with _ | room
    · simp only [hr]
      exact h
    · simp only [hr]
      split
      · exact h
      · split
        · exact h
        · exact h

theorem markDrunk_WF (pid rawCode target : String) (st : ServerState) (h : RoomsWF st) :
    RoomsWF (markDrunk pid rawCode target st).2 := by
  unfold markDrunk
  rcases hp : st.players pid with _ | p0
  · simp only [hp]
    exact h
  · simp only [hp]
    rcases hr : st.rooms (jsToUpper rawCode) with _ | room
    · simp only [hr]
      exact h
    · simp only [hr]
      split
      · exact h
      · split
        · exact h
        · exact h

theorem unmarkDrunk_WF (pid rawCode target : String) (st : ServerState) (h : RoomsWF st) :
    RoomsWF (unmarkDrunk pid rawCode target st).2 := by
  unfold unmarkDrunk
  rcases hp : st.players pid with _ | p0
  · simp only [hp]
    exact h
  · simp only [hp]
    rcases hr : st.rooms (jsToUpper rawCode) with _ | room
    · simp only [hr]
      exact h
    · simp only [hr]
      split
      · exact h
      · split
        · exact h
        · exact h

theorem sendChat_WF (pid rawCode content : String) (recip : Option String) (now : Nat)
    (st : ServerState) (h : RoomsWF st) :
    RoomsWF (sendChat pid rawCode content recip now st).2 := by
  unfold sendChat
  rcases hp : st.players pid with _ | p0
  · simp only [hp]
    exact h
  · simp only [hp]
    rcases hr : st.rooms (jsToUpper rawCode) with _ | room
    · simp only [hr]
      exact h
    · simp only [hr]
      split
      · exact h
      · split
        · exact h
        · split
          · exact h
          · split
            · exact h
            · split
              · exact h
              · exact h

theorem step_WF (catalog : String → Option RoleSetData) (st st1 : ServerState)
    (hstep : Step catalog st st1) (h : RoomsWF st) : RoomsWF st1 := by
  cases hstep with
  | session pid emoji st => exact getOrCreateSession_WF pid emoji st h
  | create pid newCode now st hfresh => exact createRoom_WF pid newCode now st h
  | join pid rawCode st => exact joinRoom_WF pid rawCode st h
  | leave pid st => exact leaveRoomApi_WF pid st h
  | roleSet pid rawCode setId st => exact setRoleSet_WF catalog pid rawCode setId st h
  | selRoles pid rawCode submitted st =>
    exact setSelectedRoles_WF catalog pid rawCode submitted st h
  | order pid rawCode ord st => exact setPlayerOrder_WF pid rawCode ord st h
  | assign pid rawCode shufP shufR st hperm => exact assignRoles_WF pid rawCode shufP shufR st h
  | reset pid rawCode st => exact resetRoles_WF pid rawCode st h
  | kill pid rawCode target st => exact killPlayer_WF pid rawCode target st h
  | revive pid rawCode target st => exact revivePlayer_WF pid rawCode target st h
  | drunk pid rawCode target st => exact markDrunk_WF pid rawCode target st h
  | undrunk pid rawCode target st => exact unmarkDrunk_WF pid rawCode target st h
  | chat pid rawCode content recip now st => exact sendChat_WF pid rawCode content recip now st h

/-- C4: in every state reachable from the empty start state by any
    sequence of server operations, every room present in the registry
    with at least one member has a hostId that is one of its members. -/
theorem reachable_WF (catalog : String → Option RoleSetData) (st : ServerState)
    (hreach : Relation.ReflTransGen (Step catalog) initState st) : RoomsWF st := by
  induction hreach with
  | refl =>
    intro c r hc
    exact Option.noConfusion hc
  | tail hsub hstep ih => exact step_WF catalog _ _ hstep ih

theorem reachable_host_is_member
    (catalog : String → Option RoleSetData) (st : ServerState)
    (hreach : Reachable catalog initState st)
    (code : String) (room : Room) (hr : st.rooms code = some room)
    (hne : room.players ≠ []) :
    room.hostId ∈ room.players :=
  (reachable_WF catalog st hreach code room hr).2.1

/-- Witness for C4: a session step followed by a create step reaches a
    state whose one room has its host P among its members. -/
theorem reachable_host_is_member_witness :
    ({ code := "RMAA", hostId := "P", players := ["P"], createdAt := 0, selectedRoles := [], rolesAssigned := false, roleSet := defaultRoleSet } : Room).hostId
      ∈ ({ code := "RMAA", hostId := "P", players := ["P"], createdAt := 0, selectedRoles := [], rolesAssigned := false, roleSet := defaultRoleSet } : Room).players := by
  have hreach : Reachable (fun _ => none) initState
      (createRoom "P" "RMAA" 0 (getOrCreateSession "P" "🐱" initState)).2 :=
    Relation.ReflTransGen.tail
      (Relation.ReflTransGen.single (Step.session "P" "🐱" initState))
      (Step.create "P" "RMAA" 0 _ (by decide))
  exact reachable_host_is_member (fun _ => none) _ hreach "RMAA" _ (by decide) (by decide)

end Clocktower
